import Mathlib

/-!
Verification of the FinOpsia core: the Currency Unit Converter
(src/core/currency.py), the Balance Time-Series Builder
(src/ml/forecaster.py) and the Model Lifecycle & Policy Engine
(src/ml/persistence.py), shallowly embedded in Lean 4.

Monetary display amounts are modelled as exact rationals (the binary
floating-point representation is idealised away); smallest-unit amounts
are integers, exactly as in the source.
-/

namespace FinOpsia

/-! ## Python-level error taxonomy -/

/-- The exception classes raised by the embedded code: `ValueError`,
`ModelNotFoundError` (src/ml/persistence.py) and `InsufficientDataError`
(src/ml/forecaster.py). -/
inductive PyError where
  | valueError (msg : String)
  | modelNotFound (msg : String)
  | insufficientData (msg : String)
deriving Repr, DecidableEq

/-! ## Currency Unit Converter (src/core/currency.py) -/

/-- `CURRENCY_DECIMALS`: number of decimal places per currency. -/
def CURRENCY_DECIMALS : String → Option Nat
  | "NGN" => some 2
  | "USD" => some 2
  | "EUR" => some 2
  | "JPY" => some 0
  | _ => none

/-- Python's built-in `round` on an exact value: round half to even
(banker's rounding), as used by `to_smallest_unit`. -/
def pyRound (q : ℚ) : ℤ :=
  if q - ⌊q⌋ < 1/2 then ⌊q⌋
  else if 1/2 < q - ⌊q⌋ then ⌊q⌋ + 1
  else if ⌊q⌋ % 2 = 0 then ⌊q⌋ else ⌊q⌋ + 1

/-- `to_smallest_unit(amount, currency)`: `int(round(amount * factor))`,
raising `ValueError` on an unsupported currency. -/
def to_smallest_unit (amount : ℚ) (currency : String) : Except PyError ℤ :=
  match CURRENCY_DECIMALS currency with
  | none => .error (.valueError ("Unsupported currency: " ++ currency))
  | some d => .ok (pyRound (amount * 10 ^ d))

/-- `from_smallest_unit(amount_int, currency)`: `amount_int / factor`,
raising `ValueError` on an unsupported currency. -/
def from_smallest_unit (amount_int : ℤ) (currency : String) : Except PyError ℚ :=
  match CURRENCY_DECIMALS currency with
  | none => .error (.valueError ("Unsupported currency: " ++ currency))
  | some d => .ok ((amount_int : ℚ) / 10 ^ d)

/-- Modelled from the spec: rounding half away from zero, the rounding
mode the specification ascribes to `toSmallestUnit` (an amount exactly
halfway between two smallest units goes to the one with larger absolute
value). Written for comparison with the source's `pyRound`. -/
def roundHalfAwayFromZero (q : ℚ) : ℤ :=
  if q < 0 then -⌊-q + 1/2⌋ else ⌊q + 1/2⌋

/-- `pyRound` is the identity on integers. -/
theorem pyRound_intCast (k : ℤ) : pyRound (k : ℚ) = k := by
  unfold pyRound
  simp

/-- `pyRound` returns a nearest integer, breaking ties towards the even
neighbour. -/
theorem pyRound_nearest_even (q : ℚ) :
    |q - pyRound q| ≤ 1/2 ∧ (|q - pyRound q| = 1/2 → pyRound q % 2 = 0) := by
  have h0 : (0 : ℚ) ≤ q - ⌊q⌋ := by
    have := Int.floor_le q; linarith
  have h1 : q - (⌊q⌋ : ℚ) < 1 := by
    have := Int.lt_floor_add_one q; linarith
  unfold pyRound
  rcases lt_trichotomy (q - (⌊q⌋ : ℚ)) (1/2) with hlt | heq | hgt
  · rw [if_pos hlt]
    constructor
    · rw [abs_of_nonneg h0]; linarith
    · intro habs
      rw [abs_of_nonneg h0] at habs
      linarith
  · have hn1 : ¬ (q - (⌊q⌋ : ℚ) < 1/2) := by rw [heq]; exact lt_irrefl _
    have hn2 : ¬ ((1:ℚ)/2 < q - (⌊q⌋ : ℚ)) := by rw [heq]; exact lt_irrefl _
    rw [if_neg hn1, if_neg hn2]
    by_cases hev : ⌊q⌋ % 2 = 0
    · rw [if_pos hev]
      exact ⟨by rw [abs_of_nonneg h0, heq], fun _ => hev⟩
    · rw [if_neg hev]
      have hv : q - ((⌊q⌋ + 1 : ℤ) : ℚ) = -(1/2) := by push_cast; linarith
      constructor
      · rw [hv, abs_neg, abs_of_nonneg (by norm_num)]
      · intro _
        rcases Int.emod_two_eq ⌊q⌋ with h | h
        · exact absurd h hev
        · omega
  · rw [if_neg (by linarith), if_pos hgt]
    have hv : q - ((⌊q⌋ + 1 : ℤ) : ℚ) = (q - ⌊q⌋) - 1 := by push_cast; ring
    constructor
    · rw [hv, abs_of_nonpos (by linarith)]; linarith
    · intro habs
      rw [hv, abs_of_nonpos (by linarith)] at habs
      linarith

/-- C7: for every supported currency `c` (declared precision `d`) and every
amount `x` representable at that precision (`x * 10 ^ d` is an integer `k`),
`from_smallest_unit (to_smallest_unit x c) c` reproduces `x` exactly. -/
theorem currency_roundtrip (c : String) (d : Nat) (x : ℚ) (k : ℤ)
    (hc : CURRENCY_DECIMALS c = some d) (hx : x * 10 ^ d = (k : ℚ)) :
    to_smallest_unit x c = .ok k ∧ from_smallest_unit k c = .ok x := by
  have hd : ((10 : ℚ) ^ d) ≠ 0 := by positivity
  constructor
  · simp only [to_smallest_unit, hc, hx, pyRound_intCast]
  · simp only [from_smallest_unit, hc, ← hx, mul_div_cancel_right₀ x hd]

/-- Witness for C7: 1000.55 NGN round-trips through 100055 kobo. -/
theorem currency_roundtrip_inst :
    to_smallest_unit (20011/20) "NGN" = .ok 100055 ∧
      from_smallest_unit 100055 "NGN" = .ok (20011/20) :=
  currency_roundtrip "NGN" 2 (20011/20) 100055 rfl (by norm_num)

/-- Counterexample to C8: 0.005 USD sits exactly halfway between 0 and 1
cent; `to_smallest_unit` (Python `round`, half to even) yields 0 cents,
while rounding half away from zero would yield 1 cent. -/
theorem to_smallest_unit_not_half_away :
    to_smallest_unit (1/200) "USD" = .ok 0 ∧
      roundHalfAwayFromZero ((1/200) * 10 ^ 2) = 1 := by
  constructor
  · simp only [to_smallest_unit, CURRENCY_DECIMALS, pyRound]
    norm_num
  · simp only [roundHalfAwayFromZero]
    norm_num

/-- C8 (amended): for every supported currency and amount, `to_smallest_unit`
rounds to a nearest smallest-unit count at the currency's decimal boundary,
breaking exact halves towards the even count (Python banker's rounding),
for positive and negative amounts alike. -/
theorem to_smallest_unit_half_even (c : String) (d : Nat) (x : ℚ)
    (hc : CURRENCY_DECIMALS c = some d) :
    ∃ n : ℤ, to_smallest_unit x c = .ok n ∧
      |x * 10 ^ d - n| ≤ 1/2 ∧ (|x * 10 ^ d - n| = 1/2 → n % 2 = 0) := by
  refine ⟨pyRound (x * 10 ^ d), ?_, ?_, ?_⟩
  · simp only [to_smallest_unit, hc]
  · exact (pyRound_nearest_even (x * 10 ^ d)).1
  · exact (pyRound_nearest_even (x * 10 ^ d)).2

/-- Witness for the amended C8 at 0.005 USD. -/
theorem to_smallest_unit_half_even_inst :
    ∃ n : ℤ, to_smallest_unit (1/200) "USD" = .ok n ∧
      |(1/200 : ℚ) * 10 ^ 2 - n| ≤ 1/2 ∧
      (|(1/200 : ℚ) * 10 ^ 2 - n| = 1/2 → n % 2 = 0) :=
  to_smallest_unit_half_even "USD" 2 (1/200) rfl

/-! ## Model Lifecycle & Policy Engine (src/ml/persistence.py)

The module-level dict `_MODEL_CACHE` and the artifact directory on disk are
the two pieces of mutable state; both are string-keyed dictionaries of
opaque artifacts (type parameter `α`).  The adapters' `train` functions
(`categorizer.train_model`, `forecaster.train_model`) are passed in as
parameters; they may raise (return `.error`). -/

/-- A Python dict keyed by strings: association list, first binding wins. -/
def dictGet (l : List (String × α)) (k : String) : Option α :=
  match l with
  | [] => none
  | (k', v) :: rest => if k' = k then some v else dictGet rest k

/-- `d[k] = v` on a Python dict: replace the existing binding in place, or
append a new binding at the end. -/
def dictSet (l : List (String × α)) (k : String) (v : α) : List (String × α) :=
  match l with
  | [] => [(k, v)]
  | (k', v') :: rest => if k' = k then (k, v) :: rest else (k', v') :: dictSet rest k v

theorem dictGet_dictSet_self (l : List (String × α)) (k : String) (v : α) :
    dictGet (dictSet l k v) k = some v := by
  induction l with
  | nil => simp [dictSet, dictGet]
  | cons hd tl ih =>
    obtain ⟨k', v'⟩ := hd
    by_cases h : k' = k
    · simp [dictSet, dictGet, h]
    · simp [dictSet, dictGet, h, ih]

/-- The mutable state of the persistence layer: the in-memory model cache
(`_MODEL_CACHE`, keyed by cache key) and the durable artifact store on disk
(`MODEL_DIR`, keyed by file name). -/
structure MLState (α : Type) where
  cache : List (String × α)
  disk : List (String × α)
deriving Repr, DecidableEq

/-- One entry of `MODEL_POLICY`. -/
structure Policy where
  lazy_train : Bool
  requires : List String
  scope : String
deriving Repr, DecidableEq

/-- `MODEL_POLICY`: categorizer never lazy-trains, forecaster can. -/
def MODEL_POLICY : String → Option Policy
  | "categorizer" => some ⟨false, ["df"], "global"⟩
  | "forecaster" => some ⟨true, ["account_id"], "per_account"⟩
  | _ => none

/-- Python truthiness of an optional string (`None` and `""` are falsy). -/
def pyTruthy : Option String → Bool
  | none => false
  | some s => s ≠ ""

/-- `_model_path(name, account_id)`: file name of the durable artifact. -/
def model_path (name : String) (account_id : Option String) : String :=
  match account_id with
  | none => name ++ ".joblib"
  | some a => name ++ "_" ++ a ++ ".joblib"

/-- Outcome of one `get_model` call: the returned value or raised error, the
resulting state, the account ids for which an adapter `train` was invoked,
and the disk paths probed (`path.exists()` / `joblib.load`). -/
structure GetResult (α : Type) where
  result : Except PyError α
  state : MLState α
  trainCalls : List String
  diskReads : List String
deriving Repr

/-- `get_model(model_type, account_id)`: memory cache, then disk, then
policy-gated auto-training (forecaster only) or `ModelNotFoundError`
(categorizer).  `train` stands for `forecaster.train_model`. -/
def get_model (train : String → Except PyError α) (model_type : String)
    (account_id : Option String) (st : MLState α) : GetResult α :=
  match MODEL_POLICY model_type with
  | none => ⟨.error (.valueError ("Unknown model type: " ++ model_type)), st, [], []⟩
  | some policy =>
    if model_type = "forecaster" ∧ ¬ pyTruthy account_id then
      ⟨.error (.valueError "account_id is required for forecaster models"), st, [], []⟩
    else
      let account_id := if model_type = "categorizer" ∧ pyTruthy account_id then
        none else account_id
      let cache_key := if model_type = "categorizer" then "categorizer:global"
        else "forecaster:" ++ account_id.getD ""
      match dictGet st.cache cache_key with
      | some m => ⟨.ok m, st, [], []⟩
      | none =>
        let path := model_path model_type account_id
        match dictGet st.disk path with
        | some m => ⟨.ok m, { st with cache := dictSet st.cache cache_key m }, [], [path]⟩
        | none =>
          if ¬ policy.lazy_train then
            ⟨.error (.modelNotFound (model_type ++ " model not found at " ++ path ++
              ". Model must be explicitly trained before running the pipeline.")),
              st, [], [path]⟩
          else
            match train (account_id.getD "") with
            | .error e => ⟨.error e, st, [account_id.getD ""], [path]⟩
            | .ok m =>
              ⟨.ok m,
                { cache := dictSet st.cache cache_key m,
                  disk := dictSet st.disk path m },
                [account_id.getD ""], [path]⟩

/-- Outcome of one `train_and_save_model` call. -/
structure TrainResult (α : Type) where
  result : Except PyError α
  state : MLState α
  trainCalls : List String
deriving Repr

/-- `train_and_save_model(model_type, account_id, **train_kwargs)`: the
explicit retrain entry point.  `trainCat` stands for
`categorizer.train_model` (applied to the `df` keyword argument, modelled
as `df : Option β`), `trainFor` for `forecaster.train_model`. -/
def train_and_save_model (trainCat : β → Except PyError α)
    (trainFor : String → Except PyError α) (model_type : String)
    (account_id : Option String) (df : Option β) (st : MLState α) : TrainResult α :=
  match MODEL_POLICY model_type with
  | none => ⟨.error (.valueError ("Unknown model type: " ++ model_type)), st, []⟩
  | some _ =>
    if model_type = "categorizer" then
      match df with
      | none =>
        ⟨.error (.valueError "Categorizer retraining requires labeled training data (df)"),
          st, []⟩
      | some dfv =>
        match trainCat dfv with
        | .error e => ⟨.error e, st, ["categorizer"]⟩
        | .ok m =>
          ⟨.ok m,
            { cache := dictSet st.cache "categorizer:global" m,
              disk := dictSet st.disk (model_path "categorizer" none) m },
            ["categorizer"]⟩
    else if model_type = "forecaster" then
      if ¬ pyTruthy account_id then
        ⟨.error (.valueError "account_id is required for forecaster retraining"), st, []⟩
      else
        let a := account_id.getD ""
        match trainFor a with
        | .error e => ⟨.error e, st, ["forecaster:" ++ a]⟩
        | .ok m =>
          ⟨.ok m,
            { cache := dictSet st.cache ("forecaster:" ++ a) m,
              disk := dictSet st.disk (model_path model_type account_id) m },
            ["forecaster:" ++ a]⟩
    else
      -- unreachable: `MODEL_POLICY` holds exactly the two kinds above
      ⟨.error (.valueError "unreachable"), st, []⟩

/-- The disk path `get_model` probes for the categorizer: the scope id is
nulled out only when truthy, so `account_id = Some ""` leaks into the path. -/
def categorizerDiskPath (account_id : Option String) : String :=
  model_path "categorizer" (if pyTruthy account_id then none else account_id)

/-- Reduction of `get_model` for the categorizer: the three-tier resolution
with the `lazy_train = false` policy. -/
theorem get_model_categorizer_eq (train : String → Except PyError α)
    (account_id : Option String) (st : MLState α) :
    get_model train "categorizer" account_id st =
      match dictGet st.cache "categorizer:global" with
      | some m => ⟨.ok m, st, [], []⟩
      | none =>
        match dictGet st.disk (categorizerDiskPath account_id) with
        | some m =>
          ⟨.ok m, { st with cache := dictSet st.cache "categorizer:global" m },
            [], [categorizerDiskPath account_id]⟩
        | none =>
          ⟨.error (.modelNotFound ("categorizer model not found at " ++
              categorizerDiskPath account_id ++
              ". Model must be explicitly trained before running the pipeline.")),
            st, [], [categorizerDiskPath account_id]⟩ := by
  by_cases ht : pyTruthy account_id <;>
    simp [get_model, categorizerDiskPath, ht, MODEL_POLICY]

/-- Reduction of `get_model` for the forecaster with a truthy account id:
the three-tier resolution with the `lazy_train = true` policy. -/
theorem get_model_forecaster_eq (train : String → Except PyError α)
    (a : String) (st : MLState α) (ha : a ≠ "") :
    get_model train "forecaster" (some a) st =
      match dictGet st.cache ("forecaster:" ++ a) with
      | some m => ⟨.ok m, st, [], []⟩
      | none =>
        match dictGet st.disk (model_path "forecaster" (some a)) with
        | some m =>
          ⟨.ok m, { st with cache := dictSet st.cache ("forecaster:" ++ a) m },
            [], [model_path "forecaster" (some a)]⟩
        | none =>
          match train a with
          | .error e => ⟨.error e, st, [a], [model_path "forecaster" (some a)]⟩
          | .ok m =>
            ⟨.ok m,
              { cache := dictSet st.cache ("forecaster:" ++ a) m,
                disk := dictSet st.disk (model_path "forecaster" (some a)) m },
              [a], [model_path "forecaster" (some a)]⟩ := by
  have ht : pyTruthy (some a) = true := by simp [pyTruthy, ha]
  simp [get_model, ht, MODEL_POLICY]

/-- C1: for the categorizer (policy `lazy_train = false`), when neither the
memory cache nor the durable store holds an artifact for the computed key,
`get_model` raises `ModelNotFoundError`, invokes no adapter training, and
leaves the cache and the durable store unchanged. -/
theorem get_model_categorizer_refused (train : String → Except PyError α)
    (account_id : Option String) (st : MLState α)
    (h1 : dictGet st.cache "categorizer:global" = none)
    (h2 : dictGet st.disk (categorizerDiskPath account_id) = none) :
    (∃ msg, (get_model train "categorizer" account_id st).result =
        .error (.modelNotFound msg)) ∧
      (get_model train "categorizer" account_id st).trainCalls = [] ∧
      (get_model train "categorizer" account_id st).state = st := by
  rw [get_model_categorizer_eq, h1, h2]
  exact ⟨⟨_, rfl⟩, rfl, rfl⟩

/-- Witness for C1 on the empty state. -/
theorem get_model_categorizer_refused_inst :
    (∃ msg, (get_model (fun _ => .error (.valueError "unused")) "categorizer"
        none (MLState.mk ([] : List (String × Nat)) [])).result =
        .error (.modelNotFound msg)) ∧
      (get_model (fun _ => .error (.valueError "unused")) "categorizer"
        none (MLState.mk ([] : List (String × Nat)) [])).trainCalls = [] ∧
      (get_model (fun _ => .error (.valueError "unused")) "categorizer"
        none (MLState.mk ([] : List (String × Nat)) [])).state = ⟨[], []⟩ :=
  get_model_categorizer_refused _ none _ rfl rfl

/-- C2: for the forecaster (policy `lazy_train = true`) on a cold start
(no cached and no stored artifact for the key), `get_model` invokes the
adapter's `train` exactly once, persists the result to the durable store at
the key, inserts it into the memory cache and returns it; a subsequent
`get_model` for the same key returns the cached artifact unchanged with no
further training and no disk access. -/
theorem get_model_forecaster_cold_start (train : String → Except PyError α)
    (a : String) (m : α) (st : MLState α) (ha : a ≠ "")
    (h1 : dictGet st.cache ("forecaster:" ++ a) = none)
    (h2 : dictGet st.disk (model_path "forecaster" (some a)) = none)
    (h3 : train a = .ok m) :
    (get_model train "forecaster" (some a) st).result = .ok m ∧
      (get_model train "forecaster" (some a) st).trainCalls = [a] ∧
      (get_model train "forecaster" (some a) st).state =
        ⟨dictSet st.cache ("forecaster:" ++ a) m,
          dictSet st.disk (model_path "forecaster" (some a)) m⟩ ∧
      (get_model train "forecaster" (some a)
          (get_model train "forecaster" (some a) st).state).result = .ok m ∧
      (get_model train "forecaster" (some a)
          (get_model train "forecaster" (some a) st).state).trainCalls = [] ∧
      (get_model train "forecaster" (some a)
          (get_model train "forecaster" (some a) st).state).diskReads = [] ∧
      (get_model train "forecaster" (some a)
          (get_model train "forecaster" (some a) st).state).state =
        (get_model train "forecaster" (some a) st).state := by
  have hfirst : get_model train "forecaster" (some a) st =
      ⟨.ok m,
        ⟨dictSet st.cache ("forecaster:" ++ a) m,
          dictSet st.disk (model_path "forecaster" (some a)) m⟩,
        [a], [model_path "forecaster" (some a)]⟩ := by
    rw [get_model_forecaster_eq train a st ha, h1, h2, h3]
  have hsecond : get_model train "forecaster" (some a)
      (⟨dictSet st.cache ("forecaster:" ++ a) m,
        dictSet st.disk (model_path "forecaster" (some a)) m⟩ : MLState α) =
      ⟨.ok m,
        ⟨dictSet st.cache ("forecaster:" ++ a) m,
          dictSet st.disk (model_path "forecaster" (some a)) m⟩,
        [], []⟩ := by
    rw [get_model_forecaster_eq train a _ ha]
    simp only [dictGet_dictSet_self]
  rw [hfirst]
  refine ⟨rfl, rfl, rfl, ?_, ?_, ?_, ?_⟩ <;> rw [hsecond]

/-- Witness for C2: cold start for account "acct1" with a training stub. -/
theorem get_model_forecaster_cold_start_inst :
    (get_model (fun _ => .ok 7) "forecaster" (some "acct1")
        (MLState.mk ([] : List (String × Nat)) [])).result = .ok 7 ∧
      (get_model (fun _ => .ok 7) "forecaster" (some "acct1")
        (MLState.mk ([] : List (String × Nat)) [])).trainCalls = ["acct1"] ∧
      (get_model (fun _ => .ok 7) "forecaster" (some "acct1")
        (MLState.mk ([] : List (String × Nat)) [])).state =
        ⟨dictSet [] ("forecaster:" ++ "acct1") 7,
          dictSet [] (model_path "forecaster" (some "acct1")) 7⟩ ∧
      (get_model (fun _ => .ok 7) "forecaster" (some "acct1")
          (get_model (fun _ => .ok 7) "forecaster" (some "acct1")
            (MLState.mk ([] : List (String × Nat)) [])).state).result = .ok 7 ∧
      (get_model (fun _ => .ok 7) "forecaster" (some "acct1")
          (get_model (fun _ => .ok 7) "forecaster" (some "acct1")
            (MLState.mk ([] : List (String × Nat)) [])).state).trainCalls = [] ∧
      (get_model (fun _ => .ok 7) "forecaster" (some "acct1")
          (get_model (fun _ => .ok 7) "forecaster" (some "acct1")
            (MLState.mk ([] : List (String × Nat)) [])).state).diskReads = [] ∧
      (get_model (fun _ => .ok 7) "forecaster" (some "acct1")
          (get_model (fun _ => .ok 7) "forecaster" (some "acct1")
            (MLState.mk ([] : List (String × Nat)) [])).state).state =
        (get_model (fun _ => .ok 7) "forecaster" (some "acct1")
          (MLState.mk ([] : List (String × Nat)) [])).state :=
  get_model_forecaster_cold_start (fun _ => .ok 7) "acct1" 7 ⟨[], []⟩
    (by decide) rfl rfl rfl

/-- C3: the explicit retrain entry point `train_and_save_model` never
consults the memory cache or the durable store (its returned value and its
training invocations are independent of the starting state), always invokes
the matching adapter's `train`, and always overwrites both the durable
store record and the memory-cache entry at the key — for the categorizer
(whose policy has `lazy_train = false`) just as for the forecaster. -/
theorem train_and_save_model_always_overwrites
    (trainCat : β → Except PyError α) (trainFor : String → Except PyError α)
    (account_id : Option String) (df : Option β) (st : MLState α) :
    (∀ dfv mc, df = some dfv → trainCat dfv = .ok mc →
      train_and_save_model trainCat trainFor "categorizer" account_id df st =
        ⟨.ok mc,
          ⟨dictSet st.cache "categorizer:global" mc,
            dictSet st.disk (model_path "categorizer" none) mc⟩,
          ["categorizer"]⟩) ∧
    (∀ a mf, account_id = some a → a ≠ "" → trainFor a = .ok mf →
      train_and_save_model trainCat trainFor "forecaster" account_id df st =
        ⟨.ok mf,
          ⟨dictSet st.cache ("forecaster:" ++ a) mf,
            dictSet st.disk (model_path "forecaster" (some a)) mf⟩,
          ["forecaster:" ++ a]⟩) ∧
    (∀ (st' : MLState α) (model_type : String),
      (train_and_save_model trainCat trainFor model_type account_id df st).result =
        (train_and_save_model trainCat trainFor model_type account_id df st').result ∧
      (train_and_save_model trainCat trainFor model_type account_id df st).trainCalls =
        (train_and_save_model trainCat trainFor model_type account_id df st').trainCalls) := by
  refine ⟨?_, ?_, ?_⟩
  · intro dfv mc hdf hcat
    subst hdf
    simp [train_and_save_model, MODEL_POLICY, hcat]
  · intro a mf hacc ha hfor
    subst hacc
    have ht : pyTruthy (some a) = true := by simp [pyTruthy, ha]
    simp [train_and_save_model, MODEL_POLICY, ht, hfor]
  · intro st' model_type
    unfold train_and_save_model
    cases hP : MODEL_POLICY model_type with
    | none => exact ⟨rfl, rfl⟩
    | some p =>
      by_cases hcat : model_type = "categorizer"
      · cases df with
        | none => simp [hcat]
        | some dfv =>
          cases hc : trainCat dfv with
          | error e => simp [hcat, hc]
          | ok mc => simp [hcat, hc]
      · by_cases hfor : model_type = "forecaster"
        · by_cases ht : pyTruthy account_id
          · cases hf : trainFor (account_id.getD "") with
            | error e => simp [hcat, hfor, ht, hf]
            | ok mf => simp [hcat, hfor, ht, hf]
          · simp [hcat, hfor, ht]
        · simp [hcat, hfor]

/-- Witness for C3: explicit retraining of both kinds from a nonempty
cache/store state, with unit training data. -/
theorem train_and_save_model_always_overwrites_inst :
    train_and_save_model (fun _ : Unit => .ok 5) (fun _ => .ok 6) "categorizer"
        (some "acct1") (some ()) (MLState.mk [("categorizer:global", 1)]
          [("categorizer.joblib", 2)]) =
      ⟨.ok 5,
        ⟨dictSet [("categorizer:global", 1)] "categorizer:global" 5,
          dictSet [("categorizer.joblib", 2)] (model_path "categorizer" none) 5⟩,
        ["categorizer"]⟩ ∧
    train_and_save_model (fun _ : Unit => .ok 5) (fun _ => .ok 6) "forecaster"
        (some "acct1") (some ()) (MLState.mk [("categorizer:global", 1)]
          [("categorizer.joblib", 2)]) =
      ⟨.ok 6,
        ⟨dictSet [("categorizer:global", 1)] ("forecaster:" ++ "acct1") 6,
          dictSet [("categorizer.joblib", 2)] (model_path "forecaster" (some "acct1")) 6⟩,
        ["forecaster:" ++ "acct1"]⟩ :=
  ⟨(train_and_save_model_always_overwrites (fun _ : Unit => .ok 5) (fun _ => .ok 6)
      (some "acct1") (some ()) ⟨[("categorizer:global", 1)], [("categorizer.joblib", 2)]⟩).1
      () 5 rfl rfl,
    (train_and_save_model_always_overwrites (fun _ : Unit => .ok 5) (fun _ => .ok 6)
      (some "acct1") (some ()) ⟨[("categorizer:global", 1)], [("categorizer.joblib", 2)]⟩).2.1
      "acct1" 6 rfl (by decide) rfl⟩

/-- Counterexample to C10: `get_model("categorizer", "")` is not equivalent
to `get_model("categorizer", None)`.  The empty string is falsy, so it is
not nulled out and leaks into the disk path (`categorizer_.joblib` instead
of `categorizer.joblib`): with an artifact stored at `categorizer.joblib`,
the `None` call returns it while the `""` call raises `ModelNotFoundError`. -/
theorem get_model_categorizer_empty_scope_differs :
    (get_model (fun _ => .error (.valueError "unused")) "categorizer" (some "")
        (MLState.mk ([] : List (String × Nat)) [("categorizer.joblib", 0)])).result =
      .error (.modelNotFound ("categorizer model not found at categorizer_.joblib." ++
        " Model must be explicitly trained before running the pipeline.")) ∧
    (get_model (fun _ => .error (.valueError "unused")) "categorizer" none
        (MLState.mk ([] : List (String × Nat)) [("categorizer.joblib", 0)])).result =
      .ok 0 := by
  constructor <;> rfl

/-- C10 (amended): for every non-empty (truthy) account id `a`, the call
`get_model("categorizer", a)` silently nulls the scope id out and is
indistinguishable from `get_model("categorizer", None)` on the same state:
same outcome, same resulting cache and durable store. -/
theorem get_model_categorizer_ignores_truthy_scope
    (train : String → Except PyError α) (a : String) (st : MLState α)
    (ha : a ≠ "") :
    get_model train "categorizer" (some a) st =
      get_model train "categorizer" none st := by
  simp [get_model, pyTruthy, ha]

/-- Witness for the amended C10 at a nonempty account id. -/
theorem get_model_categorizer_ignores_truthy_scope_inst :
    get_model (fun _ => .error (.valueError "unused")) "categorizer" (some "acct1")
        (MLState.mk ([] : List (String × Nat)) [("categorizer.joblib", 0)]) =
      get_model (fun _ => .error (.valueError "unused")) "categorizer" none
        (MLState.mk ([] : List (String × Nat)) [("categorizer.joblib", 0)]) :=
  get_model_categorizer_ignores_truthy_scope _ "acct1" _ (by decide)

/-! ## Balance Time-Series Builder (src/ml/forecaster.py)

Calendar dates are modelled as natural-number day indices.  The ledger
repository (`db.repositories.fetch_transactions`) is a parameter
`fetch : ℕ → List Txn` giving, for each `years_back`, the transactions of
the account within that lookback window. -/

/-- One row of the transactions frame: date, unsigned amount in smallest
units, and a direction tag. -/
structure Txn where
  txn_date : Nat
  amount : Nat
  direction : String
deriving Repr, DecidableEq

/-- `_signed_amount`: inflow positive, anything else negative. -/
def signed_amount (t : Txn) : ℤ :=
  if t.direction = "inflow" then (t.amount : ℤ) else -(t.amount : ℤ)

def MIN_DAYS_REQUIRED : Nat := 90

def DEFAULT_LOOKBACK_YEARS : Nat := 2

def MAX_LOOKBACK_YEARS : Nat := 5

/-- The distinct transaction dates, ascending: the index produced by
`txns.groupby("txn_date")...sort_index()`. -/
def txnDates (txns : List Txn) : List Nat :=
  ((txns.map Txn.txn_date).dedup).insertionSort (· ≤ ·)

/-- `daily_cashflow`: one `(date, net signed delta)` pair per distinct
transaction date, dates ascending, same-day transactions summed. -/
def dailyCashflow (txns : List Txn) : List (Nat × ℤ) :=
  (txnDates txns).map (fun d =>
    (d, ((txns.filter (fun t => t.txn_date = d)).map signed_amount).sum))

/-- The lookback windows the `while lookback_years <= MAX_LOOKBACK_YEARS`
loop can examine: 2, 3, 4, 5 years. -/
def lookbackWindows : List Nat :=
  List.range' DEFAULT_LOOKBACK_YEARS (MAX_LOOKBACK_YEARS - DEFAULT_LOOKBACK_YEARS + 1)

/-- The widening loop of `build_daily_balance_series`: for each window in
turn, fetch; an empty frame only widens; a grouped frame with at least
`MIN_DAYS_REQUIRED` distinct days breaks; otherwise it is kept as the
current `daily_cashflow` and the window widens.  Returns the final
`daily_cashflow` together with the list of windows actually fetched. -/
def widenLoop (fetch : Nat → List Txn) :
    List Nat → List (Nat × ℤ) → List (Nat × ℤ) × List Nat
  | [], acc => (acc, [])
  | y :: ys, acc =>
    if (fetch y).isEmpty then
      let r := widenLoop fetch ys acc
      (r.1, y :: r.2)
    else
      let daily := dailyCashflow (fetch y)
      if MIN_DAYS_REQUIRED ≤ daily.length then (daily, [y])
      else
        let r := widenLoop fetch ys daily
        (r.1, y :: r.2)

/-- `daily_cashflow.cumsum() + starting_balance`, carried out left to
right. -/
def cumsumFrom (start : ℤ) : List (Nat × ℤ) → List (Nat × ℤ)
  | [] => []
  | (d, v) :: rest => (d, start + v) :: cumsumFrom (start + v) rest

/-- `fetch_account_metadata` result: starting balance (smallest unit) and
currency code. -/
structure AccountMeta where
  starting_balance : ℤ
  currency : String
deriving Repr, DecidableEq

/-- `daily_balance.apply(lambda x: from_smallest_unit(x, currency))`:
convert every value; the first failing conversion propagates. -/
def convertSeries (c : String) : List (Nat × ℤ) → Except PyError (List (Nat × ℚ))
  | [] => .ok []
  | p :: rest =>
    match from_smallest_unit p.2 c with
    | .error e => .error e
    | .ok q =>
      match convertSeries c rest with
      | .error e => .error e
      | .ok tail => .ok ((p.1, q) :: tail)

/-- The post-loop tail of `build_daily_balance_series`: cumulative sum plus
starting balance, every value converted back to display precision via
`from_smallest_unit`. -/
def seriesFromDaily (daily : List (Nat × ℤ)) (startingBalance : ℤ)
    (currency : String) : Except PyError (List (Nat × ℚ)) :=
  convertSeries currency (cumsumFrom startingBalance daily)

/-- `build_daily_balance_series(account_id)`: widen, then fail with
`InsufficientDataError` when fewer than `MIN_DAYS_REQUIRED` distinct days
were found, else return the converted daily balance series. -/
def build_daily_balance_series (fetch : Nat → List Txn) (meta : AccountMeta) :
    Except PyError (List (Nat × ℚ)) :=
  let daily := (widenLoop fetch lookbackWindows []).1
  if daily.isEmpty ∨ daily.length < MIN_DAYS_REQUIRED then
    .error (.insufficientData "Not enough data to train model")
  else
    seriesFromDaily daily meta.starting_balance meta.currency

/-- `forecaster.train_model(account_id)`: build the series, then fit the
(opaque) Prophet model on it. -/
def forecaster_train_model (fit : List (Nat × ℚ) → α)
    (fetch : Nat → List Txn) (meta : AccountMeta) : Except PyError α :=
  (build_daily_balance_series fetch meta).map fit

theorem getLast?_cons_of_getLast? (y : β) {z : β} {l : List β}
    (h : l.getLast? = some z) : (y :: l).getLast? = some z := by
  cases l with
  | nil => simp at h
  | cons b t => rw [List.getLast?_cons_cons]; exact h

/-- If every window's grouped frame stays below the threshold, so does the
loop's final `daily_cashflow`. -/
theorem widenLoop_result_short (fetch : Nat → List Txn) (ws : List Nat)
    (acc : List (Nat × ℤ)) (hacc : acc.length < MIN_DAYS_REQUIRED)
    (hws : ∀ y ∈ ws, (dailyCashflow (fetch y)).length < MIN_DAYS_REQUIRED) :
    (widenLoop fetch ws acc).1.length < MIN_DAYS_REQUIRED := by
  induction ws generalizing acc with
  | nil => simpa [widenLoop] using hacc
  | cons y ys ih =>
    have hy : (dailyCashflow (fetch y)).length < MIN_DAYS_REQUIRED :=
      hws y (by simp)
    have hys : ∀ z ∈ ys, (dailyCashflow (fetch z)).length < MIN_DAYS_REQUIRED :=
      fun z hz => hws z (by simp [hz])
    by_cases he : (fetch y).isEmpty
    · simpa [widenLoop, he] using ih acc hacc hys
    · have hnb : ¬ (MIN_DAYS_REQUIRED ≤ (dailyCashflow (fetch y)).length) :=
        not_le.mpr hy
      simpa [widenLoop, he, hnb] using ih (dailyCashflow (fetch y)) hy hys

/-- The windows actually fetched form a prefix of the window list. -/
theorem widenLoop_fetched_prefix (fetch : Nat → List Txn) (ws : List Nat)
    (acc : List (Nat × ℤ)) : ∃ t, (widenLoop fetch ws acc).2 ++ t = ws := by
  induction ws generalizing acc with
  | nil => exact ⟨[], rfl⟩
  | cons y ys ih =>
    by_cases he : (fetch y).isEmpty
    · obtain ⟨t, ht⟩ := ih acc
      exact ⟨t, by simp [widenLoop, he, ht]⟩
    · by_cases hb : MIN_DAYS_REQUIRED ≤ (dailyCashflow (fetch y)).length
      · exact ⟨ys, by simp [widenLoop, he, hb]⟩
      · obtain ⟨t, ht⟩ := ih (dailyCashflow (fetch y))
        exact ⟨t, by simp [widenLoop, he, hb, ht]⟩

/-- The loop always fetches the first window. -/
theorem widenLoop_fetches_head (fetch : Nat → List Txn) (y : Nat) (ys : List Nat)
    (acc : List (Nat × ℤ)) :
    ∃ rest, (widenLoop fetch (y :: ys) acc).2 = y :: rest := by
  by_cases he : (fetch y).isEmpty
  · exact ⟨(widenLoop fetch ys acc).2, by simp [widenLoop, he]⟩
  · by_cases hb : MIN_DAYS_REQUIRED ≤ (dailyCashflow (fetch y)).length
    · exact ⟨[], by simp [widenLoop, he, hb]⟩
    · exact ⟨(widenLoop fetch ys (dailyCashflow (fetch y))).2,
        by simp [widenLoop, he, hb]⟩

/-- As soon as a fetched window's grouped frame reaches the threshold, the
loop stops there: that window is the last one fetched and its grouping is
the loop's result. -/
theorem widenLoop_first_success (fetch : Nat → List Txn) (ws : List Nat)
    (acc : List (Nat × ℤ)) (z : Nat) (hz : z ∈ (widenLoop fetch ws acc).2)
    (hne : ¬ (fetch z).isEmpty)
    (hcount : MIN_DAYS_REQUIRED ≤ (dailyCashflow (fetch z)).length) :
    (widenLoop fetch ws acc).2.getLast? = some z ∧
      (widenLoop fetch ws acc).1 = dailyCashflow (fetch z) := by
  induction ws generalizing acc with
  | nil => simp [widenLoop] at hz
  | cons y ys ih =>
    by_cases he : (fetch y).isEmpty
    · simp only [widenLoop, he, if_pos] at hz ⊢
      rw [List.mem_cons] at hz
      rcases hz with rfl | hz'
      · exact absurd he hne
      · obtain ⟨h1, h2⟩ := ih acc hz'
        exact ⟨getLast?_cons_of_getLast? y h1, h2⟩
    · by_cases hb : MIN_DAYS_REQUIRED ≤ (dailyCashflow (fetch y)).length
      · simp only [widenLoop, he, hb, if_pos, if_neg, Bool.false_eq_true,
          not_false_eq_true, if_true, if_false] at hz ⊢
        simp only [List.mem_singleton] at hz
        subst hz
        simp
      · simp only [widenLoop, he, hb, if_neg, Bool.false_eq_true,
          not_false_eq_true, if_false] at hz ⊢
        rw [List.mem_cons] at hz
        rcases hz with rfl | hz'
        · exact absurd hcount hb
        · obtain ⟨h1, h2⟩ := ih (dailyCashflow (fetch y)) hz'
          exact ⟨getLast?_cons_of_getLast? y h1, h2⟩

/-- The loop's final `daily_cashflow` is either the initial accumulator or
the grouping of some examined window's fetch. -/
theorem widenLoop_result_cases (fetch : Nat → List Txn) (ws : List Nat)
    (acc : List (Nat × ℤ)) :
    (widenLoop fetch ws acc).1 = acc ∨
      ∃ w ∈ ws, (widenLoop fetch ws acc).1 = dailyCashflow (fetch w) := by
  induction ws generalizing acc with
  | nil => left; rfl
  | cons y ys ih =>
    by_cases he : (fetch y).isEmpty
    · rcases ih acc with h | ⟨w, hw, h⟩
      · left; simpa [widenLoop, he] using h
      · right; exact ⟨w, by simp [hw], by simpa [widenLoop, he] using h⟩
    · by_cases hb : MIN_DAYS_REQUIRED ≤ (dailyCashflow (fetch y)).length
      · right; exact ⟨y, by simp, by simp [widenLoop, he, hb]⟩
      · rcases ih (dailyCashflow (fetch y)) with h | ⟨w, hw, h⟩
        · right
          refine ⟨y, by simp, ?_⟩
          simp only [widenLoop, he, hb]
          simpa using h
        · right
          refine ⟨w, by simp [hw], ?_⟩
          simp only [widenLoop, he, hb]
          simpa using h

/-- C4: when every lookback window, the maximum included, yields fewer
distinct transaction days than `MIN_DAYS_REQUIRED`,
`build_daily_balance_series` raises `InsufficientDataError` and returns no
series; the forecaster training path propagates it, producing no artifact,
and the policy engine's auto-train leaves cache and store unchanged. -/
theorem build_insufficient_history (fit : List (Nat × ℚ) → α)
    (fetch : Nat → List Txn) (meta : AccountMeta)
    (h : ∀ y ∈ lookbackWindows,
      (dailyCashflow (fetch y)).length < MIN_DAYS_REQUIRED) :
    build_daily_balance_series fetch meta =
      .error (.insufficientData "Not enough data to train model") ∧
    forecaster_train_model fit fetch meta =
      .error (.insufficientData "Not enough data to train model") ∧
    (∀ (a : String) (st : MLState α), a ≠ "" →
      dictGet st.cache ("forecaster:" ++ a) = none →
      dictGet st.disk (model_path "forecaster" (some a)) = none →
      (get_model (fun _ => forecaster_train_model fit fetch meta) "forecaster"
          (some a) st).result =
        .error (.insufficientData "Not enough data to train model") ∧
      (get_model (fun _ => forecaster_train_model fit fetch meta) "forecaster"
          (some a) st).state = st) := by
  have hshort : (widenLoop fetch lookbackWindows []).1.length < MIN_DAYS_REQUIRED :=
    widenLoop_result_short fetch lookbackWindows []
      (by simp [MIN_DAYS_REQUIRED]) h
  have hbuild : build_daily_balance_series fetch meta =
      .error (.insufficientData "Not enough data to train model") := by
    simp only [build_daily_balance_series]
    rw [if_pos (Or.inr hshort)]
  have htrain : forecaster_train_model fit fetch meta =
      .error (.insufficientData "Not enough data to train model") := by
    simp only [forecaster_train_model, hbuild]
    rfl
  refine ⟨hbuild, htrain, ?_⟩
  intro a st ha h1 h2
  rw [get_model_forecaster_eq _ a st ha, h1, h2]
  simp [htrain]

/-- Witness for C4: an account with no transactions at all. -/
theorem build_insufficient_history_inst :
    build_daily_balance_series (fun _ => []) ⟨0, "USD"⟩ =
      .error (.insufficientData "Not enough data to train model") ∧
    forecaster_train_model (fun s => s) (fun _ => []) ⟨0, "USD"⟩ =
      .error (.insufficientData "Not enough data to train model") ∧
    (get_model (fun _ => forecaster_train_model (fun s => s) (fun _ => []) ⟨0, "USD"⟩)
        "forecaster" (some "a1") ⟨[], []⟩).result =
      .error (.insufficientData "Not enough data to train model") ∧
    (get_model (fun _ => forecaster_train_model (fun s => s) (fun _ => []) ⟨0, "USD"⟩)
        "forecaster" (some "a1") ⟨[], []⟩).state = ⟨[], []⟩ := by
  have h := build_insufficient_history (fun s => s) (fun _ => []) ⟨0, "USD"⟩
    (by decide)
  have h3 := h.2.2 "a1" ⟨[], []⟩ (by decide) rfl rfl
  exact ⟨h.1, h.2.1, h3.1, h3.2⟩

/-- C5: the widening loop examines windows 2, 3, 4, 5 years in that order
(monotonic, one year per iteration), fetches at most
`(max - default + 1) = 4` windows, always fetches the default window first,
stops as soon as a fetched window reaches the 90-distinct-day threshold
(that window is the last fetched and provides the result), and never
examines a window beyond the 5-year maximum (the fetched windows are a
prefix of `[2, 3, 4, 5]`). -/
theorem widening_window_policy (fetch : Nat → List Txn) :
    lookbackWindows = [2, 3, 4, 5] ∧
    (∃ t, (widenLoop fetch lookbackWindows []).2 ++ t = lookbackWindows) ∧
    (widenLoop fetch lookbackWindows []).2.length ≤
      MAX_LOOKBACK_YEARS - DEFAULT_LOOKBACK_YEARS + 1 ∧
    (∃ rest, (widenLoop fetch lookbackWindows []).2 =
      DEFAULT_LOOKBACK_YEARS :: rest) ∧
    (∀ z ∈ (widenLoop fetch lookbackWindows []).2,
      ¬ (fetch z).isEmpty →
      MIN_DAYS_REQUIRED ≤ (dailyCashflow (fetch z)).length →
      (widenLoop fetch lookbackWindows []).2.getLast? = some z ∧
        (widenLoop fetch lookbackWindows []).1 = dailyCashflow (fetch z)) := by
  refine ⟨rfl, widenLoop_fetched_prefix fetch _ _, ?_, ?_, ?_⟩
  · obtain ⟨t, ht⟩ := widenLoop_fetched_prefix fetch lookbackWindows []
    have hlen := congrArg List.length ht
    rw [List.length_append] at hlen
    have h4 : lookbackWindows.length = 4 := rfl
    rw [h4] at hlen
    have h4' : MAX_LOOKBACK_YEARS - DEFAULT_LOOKBACK_YEARS + 1 = 4 := rfl
    omega
  · exact widenLoop_fetches_head fetch 2 [3, 4, 5] []
  · intro z hz hne hcount
    exact widenLoop_first_success fetch _ _ z hz hne hcount

/-- The distinct transaction dates are strictly increasing. -/
theorem txnDates_sorted_lt (txns : List Txn) :
    List.Pairwise (· < ·) (txnDates txns) := by
  have hs : List.Sorted (· ≤ ·) (txnDates txns) :=
    List.sorted_insertionSort _ _
  have hn : (txnDates txns).Nodup :=
    (List.perm_insertionSort _ _).symm.nodup
      (List.nodup_dedup (txns.map Txn.txn_date))
  exact hs.lt_of_le hn

/-- A date appears among the distinct transaction dates exactly when some
transaction happened on it. -/
theorem mem_txnDates (txns : List Txn) (dt : Nat) :
    dt ∈ txnDates txns ↔ ∃ t ∈ txns, t.txn_date = dt := by
  unfold txnDates
  rw [(List.perm_insertionSort _ _).mem_iff, List.mem_dedup, List.mem_map]

/-- The dates of the grouped frame are the distinct transaction dates. -/
theorem dailyCashflow_fst (txns : List Txn) :
    (dailyCashflow txns).map Prod.fst = txnDates txns := by
  unfold dailyCashflow
  rw [List.map_map]
  apply List.map_id'

/-- The net delta recorded for a date is the sum of the signed amounts of
that date's transactions. -/
theorem dailyCashflow_snd (txns : List Txn) (p : Nat × ℤ)
    (hp : p ∈ dailyCashflow txns) :
    p.2 = ((txns.filter (fun t => t.txn_date = p.1)).map signed_amount).sum := by
  rw [dailyCashflow, List.mem_map] at hp
  obtain ⟨d, _, rfl⟩ := hp
  rfl

theorem cumsumFrom_length (s : ℤ) (l : List (Nat × ℤ)) :
    (cumsumFrom s l).length = l.length := by
  induction l generalizing s with
  | nil => rfl
  | cons p rest ih =>
    obtain ⟨d, v⟩ := p
    simp [cumsumFrom, ih]

/-- The cumulative sum keeps the dates. -/
theorem cumsumFrom_fst (s : ℤ) (l : List (Nat × ℤ)) :
    (cumsumFrom s l).map Prod.fst = l.map Prod.fst := by
  induction l generalizing s with
  | nil => rfl
  | cons p rest ih =>
    obtain ⟨d, v⟩ := p
    simp [cumsumFrom, ih]

/-- The `i`-th cumulative balance is the start plus the sum of the first
`i + 1` daily deltas. -/
theorem cumsumFrom_get (l : List (Nat × ℤ)) (s : ℤ) (i : Nat)
    (h : i < (cumsumFrom s l).length) (h' : i < l.length) :
    (cumsumFrom s l).get ⟨i, h⟩ =
      ((l.get ⟨i, h'⟩).1, s + ((l.take (i+1)).map Prod.snd).sum) := by
  induction l generalizing s i with
  | nil => simp at h'
  | cons p rest ih =>
    obtain ⟨d, v⟩ := p
    cases i with
    | zero => simp [cumsumFrom]
    | succ n =>
      have hn' : n < rest.length := by
        simp at h'
        omega
      have hn : n < (cumsumFrom (s + v) rest).length := by
        rw [cumsumFrom_length]
        exact hn'
      have := ih (s + v) n hn hn'
      simp only [cumsumFrom, List.get_cons_succ, this, List.take_succ_cons,
        List.map_cons, List.sum_cons]
      rw [add_assoc]

/-- With a supported currency every conversion succeeds pointwise. -/
theorem convertSeries_ok (c : String) (d : Nat)
    (hc : CURRENCY_DECIMALS c = some d) (l : List (Nat × ℤ)) :
    convertSeries c l = .ok (l.map (fun p => (p.1, (p.2 : ℚ) / 10 ^ d))) := by
  induction l with
  | nil => rfl
  | cons p rest ih =>
    simp only [convertSeries, from_smallest_unit, hc, ih, List.map_cons]

/-- A successful conversion of a nonempty series implies the currency is
supported. -/
theorem convertSeries_decimals (c : String) (p : Nat × ℤ) (l : List (Nat × ℤ))
    (s : List (Nat × ℚ)) (h : convertSeries c (p :: l) = .ok s) :
    ∃ d, CURRENCY_DECIMALS c = some d := by
  cases hc : CURRENCY_DECIMALS c with
  | some d => exact ⟨d, rfl⟩
  | none => simp [convertSeries, from_smallest_unit, hc] at h

/-- C6: on success, the series has exactly one point per calendar date with
at least one transaction in the selected window (no zero-filling), dates
strictly increasing; each daily delta is the sum of that date's signed
amounts (inflow positive, outflow negative); each balance equals the
starting balance plus the cumulative sum of the deltas in date order,
converted to display units.  In particular a single day holding an inflow
of 10,000 and an outflow of 4,000 contributes one distinct day with net
delta 6,000, and with starting balance 50,000,000 its point is
(50,000,000 + 6,000) / 100 = 500,060 display units. -/
theorem daily_series_shape :
    (∀ (fetch : Nat → List Txn) (meta : AccountMeta) (s : List (Nat × ℚ)),
      build_daily_balance_series fetch meta = .ok s →
      ∃ d, CURRENCY_DECIMALS meta.currency = some d ∧
      ∃ w ∈ lookbackWindows,
        (widenLoop fetch lookbackWindows []).1 = dailyCashflow (fetch w) ∧
        s = (cumsumFrom meta.starting_balance (dailyCashflow (fetch w))).map
              (fun p => (p.1, (p.2 : ℚ) / 10 ^ d)) ∧
        List.Pairwise (fun p q : Nat × ℚ => p.1 < q.1) s ∧
        (∀ dt, (∃ p ∈ s, p.1 = dt) ↔ ∃ t ∈ fetch w, t.txn_date = dt) ∧
        (∀ p ∈ dailyCashflow (fetch w),
          p.2 = (((fetch w).filter (fun t => t.txn_date = p.1)).map
            signed_amount).sum) ∧
        (∀ i (hi : i < s.length) (hi' : i < (dailyCashflow (fetch w)).length),
          s.get ⟨i, hi⟩ =
            (((dailyCashflow (fetch w)).get ⟨i, hi'⟩).1,
              ((meta.starting_balance +
                (((dailyCashflow (fetch w)).take (i+1)).map Prod.snd).sum : ℤ) : ℚ)
                / 10 ^ d))) ∧
    dailyCashflow [Txn.mk 0 10000 "inflow", Txn.mk 0 4000 "outflow"] =
      [(0, 6000)] ∧
    seriesFromDaily [(0, 6000)] 50000000 "NGN" = .ok [(0, 500060)] := by
  refine ⟨?_, by decide, by with_unfolding_all rfl⟩
  intro fetch meta s hb
  simp only [build_daily_balance_series] at hb
  by_cases hcond : ((widenLoop fetch lookbackWindows []).1.isEmpty = true ∨
      (widenLoop fetch lookbackWindows []).1.length < MIN_DAYS_REQUIRED)
  · rw [if_pos hcond] at hb
    exact absurd hb (by simp)
  · rw [if_neg hcond] at hb
    push_neg at hcond
    obtain ⟨hne, hlen⟩ := hcond
    rcases widenLoop_result_cases fetch lookbackWindows [] with hdaily | ⟨w, hw, hdaily⟩
    · rw [hdaily] at hne
      simp at hne
    rw [hdaily] at hb hne
    rw [seriesFromDaily] at hb
    have hcd : ∃ d, CURRENCY_DECIMALS meta.currency = some d := by
      cases hd : dailyCashflow (fetch w) with
      | nil =>
        rw [hd] at hne
        simp at hne
      | cons p rest =>
        obtain ⟨dd, v⟩ := p
        rw [hd] at hb
        rw [show cumsumFrom meta.starting_balance ((dd, v) :: rest) =
          (dd, meta.starting_balance + v) ::
            cumsumFrom (meta.starting_balance + v) rest from rfl] at hb
        exact convertSeries_decimals _ _ _ _ hb
    obtain ⟨d, hc⟩ := hcd
    rw [convertSeries_ok _ d hc] at hb
    have hs : s = (cumsumFrom meta.starting_balance (dailyCashflow (fetch w))).map
        (fun p => (p.1, (p.2 : ℚ) / 10 ^ d)) := (Except.ok.inj hb).symm
    have hfst : s.map Prod.fst = txnDates (fetch w) := by
      rw [hs, List.map_map]
      have hcomp : (Prod.fst ∘ fun p : Nat × ℤ => (p.1, (p.2 : ℚ) / 10 ^ d)) =
          (Prod.fst : Nat × ℤ → Nat) := rfl
      rw [hcomp, cumsumFrom_fst, dailyCashflow_fst]
    have hpair : List.Pairwise (fun p q : Nat × ℚ => p.1 < q.1) s := by
      have h1 : List.Pairwise (· < ·) (s.map Prod.fst) := by
        rw [hfst]
        exact txnDates_sorted_lt _
      rw [List.pairwise_map] at h1
      exact h1
    refine ⟨d, hc, w, hw, hdaily, hs, hpair, ?_, dailyCashflow_snd (fetch w), ?_⟩
    · intro dt
      rw [← mem_txnDates (fetch w) dt, ← hfst]
      exact List.mem_map.symm
    · intro i hi hi'
      have hi2 : i < (cumsumFrom meta.starting_balance
          (dailyCashflow (fetch w))).length := by
        rw [cumsumFrom_length]
        exact hi'
      have hgm : s.get ⟨i, hi⟩ = (fun p : Nat × ℤ => (p.1, (p.2 : ℚ) / 10 ^ d))
          ((cumsumFrom meta.starting_balance (dailyCashflow (fetch w))).get
            ⟨i, hi2⟩) := by
        have := hs
        subst this
        simp
      rw [hgm, cumsumFrom_get _ _ i hi2 hi']

set_option maxRecDepth 100000 in
/-- Witness for C6: starting balance 50,000,000 kobo, day 0 holding the
inflow of 10,000 and the outflow of 4,000, and 89 further single-transaction
days; the build succeeds and the resulting series has strictly increasing
dates (its first point being (0, 500060)). -/
theorem daily_series_shape_inst :
    List.Pairwise (fun p q : Nat × ℚ => p.1 < q.1)
      ((List.range 90).map (fun i => ((i : Nat), (500060 : ℚ)))) := by
  obtain ⟨d, hc, w, hw, hres, hs, hpair, hrest⟩ :=
    daily_series_shape.1
      (fun _ => Txn.mk 0 10000 "inflow" :: Txn.mk 0 4000 "outflow" ::
        (List.range 89).map (fun i => Txn.mk (i+1) 0 "inflow"))
      ⟨50000000, "NGN"⟩
      ((List.range 90).map (fun i => ((i : Nat), (500060 : ℚ))))
      (by with_unfolding_all rfl)
  exact hpair

/-! ## Interleaved resolution requests (src/ml/persistence.py, get_model)

`get_model` takes no lock and writes no claim marker: its check-then-act
sequence — probe `_MODEL_CACHE`, probe the disk, then train and publish —
is modelled as a small-step program over the shared `MLState`, one step per
check or act, and an interleaving of two requests is a boolean schedule. -/

/-- Program counter of one in-flight `get_model` resolution for an
auto-trainable kind. -/
inductive Phase where
  | checkCache
  | checkDisk
  | trainStep
  | done
deriving Repr, DecidableEq

/-- One in-flight resolution request: its cache key, disk path, account id,
program counter, whether it has invoked training, and its outcome. -/
structure Req (α : Type) where
  key : String
  path : String
  aid : String
  phase : Phase
  trained : Bool
  result : Option (Except PyError α)
deriving Repr

/-- One atomic step of a resolution request against the shared state,
following `get_model`'s tiers: cache probe, disk probe (loading into the
cache on hit), train-and-publish. -/
def reqStep (train : String → Except PyError α) (r : Req α) (st : MLState α) :
    Req α × MLState α :=
  match r.phase with
  | .checkCache =>
    match dictGet st.cache r.key with
    | some m => ({ r with phase := .done, result := some (.ok m) }, st)
    | none => ({ r with phase := .checkDisk }, st)
  | .checkDisk =>
    match dictGet st.disk r.path with
    | some m =>
      ({ r with phase := .done, result := some (.ok m) },
        { st with cache := dictSet st.cache r.key m })
    | none => ({ r with phase := .trainStep }, st)
  | .trainStep =>
    match train r.aid with
    | .error e =>
      ({ r with phase := .done, trained := true, result := some (.error e) }, st)
    | .ok m =>
      ({ r with phase := .done, trained := true, result := some (.ok m) },
        { cache := dictSet st.cache r.key m, disk := dictSet st.disk r.path m })
  | .done => (r, st)

/-- A fresh forecaster resolution request for one account. -/
def freshReq (a : String) : Req α :=
  ⟨"forecaster:" ++ a, model_path "forecaster" (some a), a, .checkCache,
    false, none⟩

/-- Run two requests under a schedule (`true` steps the first request,
`false` the second). -/
def runSched (train : String → Except PyError α) :
    List Bool → Req α × Req α × MLState α → Req α × Req α × MLState α
  | [], s => s
  | b :: rest, (ra, rb, st) =>
    if b then
      let p := reqStep train ra st
      runSched train rest (p.1, rb, p.2)
    else
      let p := reqStep train rb st
      runSched train rest (ra, p.1, p.2)

/-- Counterexample to C9: nothing serializes training per key.  Two
resolution requests for the same key ("a1"), interleaved so that both probe
the empty cache and the empty disk before either trains, BOTH invoke
training. -/
theorem same_key_requests_both_train :
    (runSched (fun _ => .ok (0 : Nat)) [true, true, false, false, true, false]
      (freshReq "a1", freshReq "a1", ⟨[], []⟩)).1.trained = true ∧
    (runSched (fun _ => .ok (0 : Nat)) [true, true, false, false, true, false]
      (freshReq "a1", freshReq "a1", ⟨[], []⟩)).2.1.trained = true := by
  constructor <;> rfl

/-- C9 (amended): the engine does not serialize implicit training per key —
when two requests' cache and disk probes interleave before either trains,
both invoke training, for the same key just as for different keys (so
different-key requests are indeed never blocked); only when one request
completes before the other starts does the second reuse the cached artifact
and skip training. -/
theorem training_not_serialized_per_key (train : String → Except PyError α)
    (a b : String) (ma mb : α) (ha : train a = .ok ma) (hb : train b = .ok mb) :
    ((runSched train [true, true, true, false]
        (freshReq a, freshReq a, ⟨[], []⟩)).1.trained = true ∧
      (runSched train [true, true, true, false]
        (freshReq a, freshReq a, ⟨[], []⟩)).2.1.trained = false ∧
      (runSched train [true, true, true, false]
        (freshReq a, freshReq a, ⟨[], []⟩)).2.1.result = some (.ok ma)) ∧
    ((runSched train [true, true, false, false, true, false]
        (freshReq a, freshReq b, ⟨[], []⟩)).1.trained = true ∧
      (runSched train [true, true, false, false, true, false]
        (freshReq a, freshReq b, ⟨[], []⟩)).2.1.trained = true ∧
      (runSched train [true, true, false, false, true, false]
        (freshReq a, freshReq b, ⟨[], []⟩)).1.result = some (.ok ma) ∧
      (runSched train [true, true, false, false, true, false]
        (freshReq a, freshReq b, ⟨[], []⟩)).2.1.result = some (.ok mb)) := by
  constructor
  · simp [runSched, reqStep, freshReq, dictGet, ha, dictGet_dictSet_self]
  · simp [runSched, reqStep, freshReq, dictGet, ha, hb]

/-- Witness for the amended C9 with a training stub and two accounts. -/
theorem training_not_serialized_per_key_inst :
    ((runSched (fun _ => .ok (0 : Nat)) [true, true, true, false]
        (freshReq "a1", freshReq "a1", ⟨[], []⟩)).1.trained = true ∧
      (runSched (fun _ => .ok (0 : Nat)) [true, true, true, false]
        (freshReq "a1", freshReq "a1", ⟨[], []⟩)).2.1.trained = false ∧
      (runSched (fun _ => .ok (0 : Nat)) [true, true, true, false]
        (freshReq "a1", freshReq "a1", ⟨[], []⟩)).2.1.result = some (.ok 0)) ∧
    ((runSched (fun _ => .ok (0 : Nat)) [true, true, false, false, true, false]
        (freshReq "a1", freshReq "a2", ⟨[], []⟩)).1.trained = true ∧
      (runSched (fun _ => .ok (0 : Nat)) [true, true, false, false, true, false]
        (freshReq "a1", freshReq "a2", ⟨[], []⟩)).2.1.trained = true ∧
      (runSched (fun _ => .ok (0 : Nat)) [true, true, false, false, true, false]
        (freshReq "a1", freshReq "a2", ⟨[], []⟩)).1.result = some (.ok 0) ∧
      (runSched (fun _ => .ok (0 : Nat)) [true, true, false, false, true, false]
        (freshReq "a1", freshReq "a2", ⟨[], []⟩)).2.1.result = some (.ok 0)) :=
  training_not_serialized_per_key (fun _ => .ok (0 : Nat)) "a1" "a2" 0 0 rfl rfl

/-- Witness for C5: with 90 distinct single-transaction days visible in
every window, the loop stops at the default 2-year window. -/
theorem widening_window_policy_inst :
    (widenLoop (fun _ => (List.range 90).map (fun i => Txn.mk i 1 "inflow"))
      lookbackWindows []).2.getLast? = some 2 ∧
    (widenLoop (fun _ => (List.range 90).map (fun i => Txn.mk i 1 "inflow"))
      lookbackWindows []).1 =
      dailyCashflow ((List.range 90).map (fun i => Txn.mk i 1 "inflow")) := by
  have h := (widening_window_policy
    (fun _ => (List.range 90).map (fun i => Txn.mk i 1 "inflow"))).2.2.2.2
  exact h 2 (by decide) (by decide) (by decide)

end FinOpsia
